/-
Verification of the task lifecycle, account-locking and engine-failover layer
of the naver-blog-server repository (src/main.py, src/blog_poster.py,
src/naver_blog_puppeteer.py).

The Python code is shallowly embedded as follows.

* The two module-level dictionaries of main.py, `task_storage` and
  `account_locks`, become function-valued finite maps `String → Option _`
  collected in a `Store`.  Python dict lookup/insert/delete become
  `mapInsert` / `mapErase` / `updateTask`.
* A task record (the dict stored in `task_storage[task_id]`) becomes the
  structure `Task`; dict keys that are only added later (`account_id`,
  `result`, `error`) are `Option` fields starting at `none`.
* The server runs on a single asyncio event loop, so code between two
  `await` points executes atomically.  `execute_blog_posting_task`
  (main.py:103-163) has exactly one `await` (the `asyncio.to_thread`
  engine call at main.py:136), so it splits into two atomic blocks:
  `beginExec` (lock check-and-acquire + transition to in_progress,
  main.py:109-133, including the except/finally bodies on the AccountBusy
  path) and `finishExec` (result/error recording + guaranteed lock release,
  main.py:142-163).  The request handlers `create_blog_post` (main.py:165)
  and `cancel_task` (main.py:232) contain no `await` that touches shared
  state and are single atomic blocks.
* Interleavings of concurrently submitted jobs are the transition relation
  `Step` on `Sys`: one constructor per atomic block, plus a per-job phase
  (`scheduled` / `running` / `finished`) recording how far that job's
  background unit has run.
* The engine stack (blog_poster.py:304-393 with naver_blog_puppeteer.py) is
  embedded as `post_to_naver_blog`, parameterised by the nondeterministic
  outcome of each browser automation attempt (`none` = the attempt
  succeeded, `some e` = it raised an exception rendered as the string `e`).
-/
import Mathlib

namespace NaverBlogServer

/-! ## Data model (main.py:50-81, blog_poster.py:362-370,
     naver_blog_puppeteer.py:243-250) -/

/-- Job status strings stored in `task_storage[task_id]["status"]`. -/
inductive TaskStatus where
  | pending
  | in_progress
  | completed
  | failed
  | cancelled
deriving DecidableEq

/-- Success payload returned by an engine: the dict built at
blog_poster.py:362-370 (Selenium) or naver_blog_puppeteer.py:243-250
(Puppeteer).  `posted_at` abstracts the timestamp; `session_id` is present
only in the Selenium dict. -/
structure PostResult where
  success : Bool
  message : String
  title : String
  content_length : Nat
  automation_engine : String
  posted_at : Nat
  session_id : Option String
deriving DecidableEq

/-- One entry of `task_storage` (the dict created at main.py:184-189 and
mutated at main.py:125-127, 133, 143-145, 152-154, 250).  Keys that the dict
acquires only later are `Option` fields. -/
structure Task where
  status : TaskStatus
  progress : Nat
  created_at : Nat
  post_title : String
  result : Option PostResult
  error : Option String
  account_id : Option String
deriving DecidableEq

/-- Model of the `task_storage` dict (main.py:78). -/
abbrev TaskStorage := String → Option Task

/-- Model of the `account_locks` dict, account_id -> task_id (main.py:81). -/
abbrev AccountLocks := String → Option String

/-- The process-wide shared mutable state of main.py. -/
structure Store where
  task_storage : TaskStorage
  account_locks : AccountLocks

/-! ## Dictionary operations -/

/-- Python `m[k] = v`. -/
def mapInsert {β : Type} (m : String → Option β) (k : String) (v : β) :
    String → Option β :=
  fun k2 => if k2 = k then some v else m k2

/-- Python `del m[k]`. -/
def mapErase {β : Type} (m : String → Option β) (k : String) :
    String → Option β :=
  fun k2 => if k2 = k then none else m k2

/-- Python `m[k]["field"] = v` — update an existing task record in place
(a no-op on keys that are absent; all call sites are guarded by existence). -/
def updateTask (m : TaskStorage) (k : String) (f : Task → Task) : TaskStorage :=
  fun k2 => if k2 = k then (m k2).map f else m k2

theorem mapInsert_self {β : Type} (m : String → Option β) (k : String) (v : β) :
    mapInsert m k v k = some v := by
  simp [mapInsert]

theorem mapInsert_ne {β : Type} (m : String → Option β) (k : String) (v : β)
    {k2 : String} (h : k2 ≠ k) : mapInsert m k v k2 = m k2 := by
  simp [mapInsert, h]

theorem mapErase_self {β : Type} (m : String → Option β) (k : String) :
    mapErase m k k = none := by
  simp [mapErase]

theorem mapErase_ne {β : Type} (m : String → Option β) (k : String)
    {k2 : String} (h : k2 ≠ k) : mapErase m k k2 = m k2 := by
  simp [mapErase, h]

theorem updateTask_self (m : TaskStorage) (k : String) (f : Task → Task) :
    updateTask m k f k = (m k).map f := by
  simp [updateTask]

theorem updateTask_ne (m : TaskStorage) (k : String) (f : Task → Task)
    {k2 : String} (h : k2 ≠ k) : updateTask m k f k2 = m k2 := by
  simp [updateTask, h]

/-! ## Engine layer: blog_poster.py `post_to_naver_blog` -/

/-- Message of the success dict built at naver_blog_puppeteer.py:245. -/
def puppeteerSuccessMessage : String :=
  "네이버 블로그 포스팅이 성공적으로 완료되었습니다."

/-- Message of the success dict built at blog_poster.py:364. -/
def seleniumSuccessMessage : String :=
  "네이버 블로그 포스팅이 성공적으로 완료되었습니다. (Selenium 사용)"

/-- Success dict of a Puppeteer run (naver_blog_puppeteer.py:243-250). -/
def puppeteerResult (title content : String) (posted_at : Nat) : PostResult :=
  { success := true
    message := puppeteerSuccessMessage
    title := title
    content_length := content.length
    automation_engine := "Puppeteer"
    posted_at := posted_at
    session_id := none }

/-- Success dict of a Selenium run (blog_poster.py:362-370). -/
def seleniumResult (title content : String) (posted_at : Nat) (sid : String) :
    PostResult :=
  { success := true
    message := seleniumSuccessMessage
    title := title
    content_length := content.length
    automation_engine := "Selenium"
    posted_at := posted_at
    session_id := some sid }

/-- Embedding of `BlogPoster.post_to_naver_blog` (blog_poster.py:304-393).
`puppeteer_available` is the module-level capability flag PUPPETEER_AVAILABLE
resolved once at import time (blog_poster.py:11-19).  `pFail` / `sFail` are
the nondeterministic outcomes of the two browser-automation attempts: `none`
means the attempt succeeded, `some e` that it raised an exception whose
string form is `e`.  The code tries Puppeteer first when available; on any
Puppeteer exception it only logs a warning and falls through
(blog_poster.py:331-334); the Selenium attempt re-raises its own exception
unchanged (`raise e`, blog_poster.py:381), so the Puppeteer error never
reaches the caller. -/
def post_to_naver_blog (puppeteer_available : Bool) (pFail sFail : Option String)
    (posted_at : Nat) (sid : String) (title content : String) :
    Except String PostResult :=
  if puppeteer_available then
    match pFail with
    | none => .ok (puppeteerResult title content posted_at)
    | some _pErr =>
        match sFail with
        | none => .ok (seleniumResult title content posted_at sid)
        | some e => .error e
  else
    match sFail with
    | none => .ok (seleniumResult title content posted_at sid)
    | some e => .error e

/-! ## Task orchestration: main.py -/

/-- The initial record stored at main.py:184-189 (`status` "pending",
`created_at`, `post_title`, `progress` 0). -/
def initialTask (now : Nat) (title : String) : Task :=
  { status := .pending
    progress := 0
    created_at := now
    post_title := title
    result := none
    error := none
    account_id := none }

/-- Store effect of the `create_blog_post` handler (main.py:165-203): it
generates a fresh task id, stores the initial record and schedules the
background execution; it performs no validation of its own. -/
def create_blog_post (s : Store) (tid : String) (now : Nat) (title : String) :
    Store :=
  { s with task_storage := mapInsert s.task_storage tid (initialTask now title) }

/-- Status test of main.py:114:
`task_storage[locked_by_task]["status"] in ["pending", "in_progress"]`. -/
def statusLive : TaskStatus → Bool
  | .pending => true
  | .in_progress => true
  | _ => false

/-- The liveness check of main.py:114 including the membership test
`locked_by_task in task_storage`. -/
def taskLive (ts : TaskStorage) (tid : String) : Bool :=
  match ts tid with
  | some t => statusLive t.status
  | none => false

/-- The AccountBusy exception message raised at main.py:115. -/
def accountBusyMessage (aid : String) : String :=
  "네이버 계정 " ++ aid ++ "가 다른 작업에서 사용 중입니다. 잠시 후 다시 시도해주세요."

/-- The except-branch of main.py:150-154: status "failed", error recorded,
progress reset to 0. -/
def failUpdate (err : String) (t : Task) : Task :=
  { t with status := .failed, error := some err, progress := 0 }

/-- The success branch of main.py:142-145: status "completed", progress 100,
result recorded. -/
def completeUpdate (r : PostResult) (t : Task) : Task :=
  { t with status := .completed, progress := 100, result := some r }

/-- The guaranteed-release block of main.py:159-163 (also reused by the
lock-release branch of `cancel_task`, main.py:245-246): delete the lock entry
only when it is currently held by `tid`. -/
def releaseLock (locks : AccountLocks) (aid tid : String) : AccountLocks :=
  if locks aid = some tid then mapErase locks aid else locks

/-- Lock acquisition plus the pending-to-in_progress transition
(main.py:121-133): `account_locks[account_id] = task_id`, status
"in_progress", progress 10 then 20, `account_id` recorded. -/
def startRecord (s : Store) (tid aid : String) : Store :=
  { task_storage :=
      updateTask
        (updateTask s.task_storage tid
          (fun t => { t with status := .in_progress, progress := 10,
                             account_id := some aid }))
        tid (fun t => { t with progress := 20 })
    account_locks := mapInsert s.account_locks aid tid }

/-- Result of the first atomic block of `execute_blog_posting_task`:
either the AccountBusy exception was raised (and handled: the job is already
marked failed), or execution proceeds into the engine call. -/
inductive BeginOutcome where
  | busy (s : Store)
  | proceed (s : Store)

/-- First atomic block of `execute_blog_posting_task` (main.py:109-133; on
the AccountBusy path this includes the except and finally bodies,
main.py:150-163, because the raise at main.py:115 is handled without any
intervening await).  Mirrors the source:
if the account is locked by a different task whose status is still live,
raise AccountBusy (the finally block's conditional release is a no-op there
since the lock is not held by `tid`); if the lock is stale, delete it; then
acquire the lock and move the task to in_progress. -/
def beginExec (s : Store) (tid aid : String) : BeginOutcome :=
  match s.account_locks aid with
  | some locked_by =>
      if locked_by = tid then
        .proceed (startRecord s tid aid)
      else if taskLive s.task_storage locked_by then
        .busy { task_storage :=
                  updateTask s.task_storage tid (failUpdate (accountBusyMessage aid))
                account_locks := releaseLock s.account_locks aid tid }
      else
        .proceed (startRecord
          { s with account_locks := mapErase s.account_locks aid } tid aid)
  | none => .proceed (startRecord s tid aid)

/-- Second atomic block of `execute_blog_posting_task` (main.py:142-163):
record the engine result or error, then always run the finally block that
releases the account lock when still held by this task. -/
def finishExec (s : Store) (tid aid : String)
    (outcome : Except String PostResult) : Store :=
  match outcome with
  | .ok r =>
      { task_storage := updateTask s.task_storage tid (completeUpdate r)
        account_locks := releaseLock s.account_locks aid tid }
  | .error e =>
      { task_storage := updateTask s.task_storage tid (failUpdate e)
        account_locks := releaseLock s.account_locks aid tid }

/-- A whole background execution of one job when no other request interleaves
with it: the two atomic blocks run back to back (main.py:103-163 with the
engine call of blog_poster.py:304-393 in between). -/
def execute_blog_posting_task (s : Store) (tid aid title content : String)
    (puppeteer_available : Bool) (pFail sFail : Option String)
    (posted_at : Nat) (sid : String) : Store :=
  match beginExec s tid aid with
  | .busy s2 => s2
  | .proceed s2 =>
      finishExec s2 tid aid
        (post_to_naver_blog puppeteer_available pFail sFail posted_at sid
          title content)

/-- Status mutation performed by the cancel handler (main.py:250). -/
def cancelUpdate (t : Task) : Task :=
  { t with status := .cancelled }

/-- The `cancel_task` handler (main.py:232-254).  `none` models the 404
JobNotFound response (main.py:237-238).  The lock-release condition at
main.py:245 is `if account_id and account_id in account_locks and
account_locks[account_id] == task_id`; Python truthiness makes the first
conjunct false for the empty string, hence the explicit `aid ≠ ""` test.
The status is then set to "cancelled" unconditionally, whatever it was. -/
def cancel_task (s : Store) (tid : String) : Option Store :=
  match s.task_storage tid with
  | none => none
  | some t =>
      let locks :=
        match t.account_id with
        | some aid =>
            if aid ≠ "" then releaseLock s.account_locks aid tid
            else s.account_locks
        | none => s.account_locks
      some { task_storage := updateTask s.task_storage tid cancelUpdate
             account_locks := locks }

/-! ## Request validation and the submission endpoint (main.py:50-76, 165-207)

FastAPI validates the request body against the Pydantic models declared at
main.py:51-63 before the handler runs.  For the declared fields this means:
`title`, `content` and `naverAccount.id` are required (a missing field is a
422 ValidationError and the handler never runs), `category` and `tags`
default to None; a declared `str` field accepts any string, including the
empty string — Pydantic imposes no non-emptiness constraint. -/

/-- Parsed `PostData` (main.py:55-59). -/
structure PostData where
  title : String
  content : String
  category : Option String
  tags : Option String
deriving DecidableEq

/-- Parsed `NaverAccount` (main.py:51-53): only `id` is declared. -/
structure NaverAccount where
  id : String
deriving DecidableEq

/-- Parsed `BlogPostRequest` (main.py:61-63). -/
structure BlogPostRequest where
  postData : PostData
  naverAccount : NaverAccount
deriving DecidableEq

/-- Raw JSON object for the `postData` member: each declared field either
present with a string value or absent. -/
structure RawPostData where
  title : Option String
  content : Option String
  category : Option String
  tags : Option String
deriving DecidableEq

/-- Raw JSON request body for `POST /api/blog/post`. -/
structure RawRequest where
  postData : Option RawPostData
  naverAccount_id : Option String
deriving DecidableEq

/-- Pydantic validation of `PostData` (main.py:55-59): `title` and `content`
are required, `category` and `tags` are optional; any present string value —
including the empty string — is accepted. -/
def validatePostData (r : RawPostData) : Except String PostData :=
  match r.title, r.content with
  | some title, some content =>
      .ok { title := title, content := content,
            category := r.category, tags := r.tags }
  | none, _ => .error "field required: postData.title"
  | _, none => .error "field required: postData.content"

/-- Pydantic validation of the whole `BlogPostRequest` body (main.py:61-63). -/
def validateRequest (r : RawRequest) : Except String BlogPostRequest :=
  match r.postData, r.naverAccount_id with
  | some pd, some aid =>
      match validatePostData pd with
      | .ok p => .ok { postData := p, naverAccount := { id := aid } }
      | .error e => .error e
  | none, _ => .error "field required: postData"
  | _, none => .error "field required: naverAccount.id"

/-- Body of the 200 response of `create_blog_post` (main.py:65-68, 199-203). -/
structure TaskResponse where
  task_id : String
  status : String
  message : String
deriving DecidableEq

/-- Response message at main.py:202. -/
def submitMessage : String := "블로그 포스팅 작업이 시작되었습니다."

/-- The `POST /api/blog/post` endpoint including framework validation:
a body failing Pydantic validation is answered 422 before the handler runs
and the store is untouched; otherwise the handler stores the pending record
and schedules the background task (main.py:165-203). -/
def handle_create_blog_post (s : Store) (raw : RawRequest) (tid : String)
    (now : Nat) : Store × Except Nat TaskResponse :=
  match validateRequest raw with
  | .error _ => (s, .error 422)
  | .ok req =>
      (create_blog_post s tid now req.postData.title,
       .ok { task_id := tid, status := "pending", message := submitMessage })

/-! ## The concurrent transition system

One `Step` per atomic block of the event loop.  Each submitted job carries a
`BgJob`: the closure arguments of `execute_blog_posting_task`
(main.py:192-197) plus a phase recording how far its background unit has
run. -/

/-- How far a job's scheduled background coroutine has executed. -/
inductive Phase where
  | scheduled
  | running
  | finished
deriving DecidableEq

/-- A scheduled background execution (the `background_tasks.add_task` call
at main.py:192-197 captures the task id, the post data and the account). -/
structure BgJob where
  account_id : String
  title : String
  content : String
  phase : Phase
deriving DecidableEq

/-- The whole server state: shared store plus the scheduled background
units. -/
structure Sys where
  store : Store
  bg : String → Option BgJob

/-- An engine outcome that the real engine stack can produce for the given
post: some choice of the capability flag and of the two attempts' results
realises it in `post_to_naver_blog`. -/
def EngineBehavior (title content : String)
    (outcome : Except String PostResult) : Prop :=
  ∃ (pa : Bool) (pFail sFail : Option String) (posted_at : Nat) (sid : String),
    outcome = post_to_naver_blog pa pFail sFail posted_at sid title content

/-- Interleaving semantics of the server: one constructor per atomic block.
`submit` is the synchronous part of `create_blog_post` for a validated
request (with a fresh uuid4 task id); `start_busy` / `start_run` are the
two outcomes of the first atomic block of `execute_blog_posting_task`;
`finish` is its second atomic block after the engine call returns or raises;
`cancel` is the `cancel_task` handler.  Status queries are read-only and
need no step. -/
inductive Step : Sys → Sys → Prop where
  | submit (s : Sys) (tid aid title content : String) (now : Nat) (s2 : Sys) :
      s.store.task_storage tid = none →
      s.bg tid = none →
      s2 = ⟨create_blog_post s.store tid now title,
            mapInsert s.bg tid ⟨aid, title, content, Phase.scheduled⟩⟩ →
      Step s s2
  | start_busy (s : Sys) (tid : String) (bj : BgJob) (st2 : Store) (s2 : Sys) :
      s.bg tid = some bj →
      bj.phase = .scheduled →
      beginExec s.store tid bj.account_id = .busy st2 →
      s2 = ⟨st2, mapInsert s.bg tid { bj with phase := .finished }⟩ →
      Step s s2
  | start_run (s : Sys) (tid : String) (bj : BgJob) (st2 : Store) (s2 : Sys) :
      s.bg tid = some bj →
      bj.phase = .scheduled →
      beginExec s.store tid bj.account_id = .proceed st2 →
      s2 = ⟨st2, mapInsert s.bg tid { bj with phase := .running }⟩ →
      Step s s2
  | finish (s : Sys) (tid : String) (bj : BgJob)
      (outcome : Except String PostResult) (s2 : Sys) :
      s.bg tid = some bj →
      bj.phase = .running →
      EngineBehavior bj.title bj.content outcome →
      s2 = ⟨finishExec s.store tid bj.account_id outcome,
            mapInsert s.bg tid { bj with phase := .finished }⟩ →
      Step s s2
  | cancel (s : Sys) (tid : String) (st2 : Store) (s2 : Sys) :
      cancel_task s.store tid = some st2 →
      s2 = ⟨st2, s.bg⟩ →
      Step s s2

/-- The store at process start: both dicts empty (main.py:78, 81). -/
def Store0 : Store := ⟨fun _ => none, fun _ => none⟩

/-- The server state at process start. -/
def Sys0 : Sys := ⟨Store0, fun _ => none⟩

/-- States the server can actually be in. -/
def Reachable (s : Sys) : Prop := Relation.ReflTransGen Step Sys0 s

/-! ## Characterisation lemmas for the atomic blocks -/

theorem releaseLock_not_owner {locks : AccountLocks} {aid tid : String}
    (h : locks aid ≠ some tid) : releaseLock locks aid tid = locks := by
  unfold releaseLock
  rw [if_neg h]

theorem releaseLock_self_ne (locks : AccountLocks) (aid tid : String) :
    releaseLock locks aid tid aid ≠ some tid := by
  unfold releaseLock
  by_cases h : locks aid = some tid
  · rw [if_pos h, mapErase_self]
    exact fun hn => Option.noConfusion hn
  · rw [if_neg h]
    exact h

theorem releaseLock_sub {locks : AccountLocks} {aid tid aid2 tid2 : String}
    (h : releaseLock locks aid tid aid2 = some tid2) :
    locks aid2 = some tid2 := by
  unfold releaseLock at h
  by_cases hc : locks aid = some tid
  · rw [if_pos hc] at h
    by_cases ha : aid2 = aid
    · subst ha
      rw [mapErase_self] at h
      exact Option.noConfusion h
    · rwa [mapErase_ne _ _ ha] at h
  · rwa [if_neg hc] at h

theorem releaseLock_preserve {locks : AccountLocks} {aid tid aid2 tid2 : String}
    (h : locks aid2 = some tid2) (hne : tid2 ≠ tid) :
    releaseLock locks aid tid aid2 = some tid2 := by
  unfold releaseLock
  by_cases hc : locks aid = some tid
  · by_cases ha : aid2 = aid
    · subst ha
      rw [h] at hc
      exact absurd (Option.some.inj hc) hne
    · rw [if_pos hc, mapErase_ne _ _ ha]
      exact h
  · rw [if_neg hc]
    exact h

theorem mapInsert_mapErase {β : Type} (m : String → Option β) (k : String)
    (v : β) : mapInsert (mapErase m k) k v = mapInsert m k v := by
  funext k2
  by_cases h : k2 = k <;> simp [mapInsert, mapErase, h]

/-- Task field effect of `startRecord`, with the two progress writes
composed. -/
def startUpdate (aid : String) (t : Task) : Task :=
  { t with status := .in_progress, progress := 20, account_id := some aid }

theorem startRecord_task_storage (s : Store) (tid aid : String) :
    (startRecord s tid aid).task_storage =
      updateTask s.task_storage tid (startUpdate aid) := by
  funext k
  simp only [startRecord, updateTask]
  by_cases h : k = tid
  · simp only [if_pos h]
    cases s.task_storage k <;> rfl
  · simp only [if_neg h]

theorem startRecord_account_locks (s : Store) (tid aid : String) :
    (startRecord s tid aid).account_locks = mapInsert s.account_locks aid tid :=
  rfl

theorem beginExec_busy_elim {s : Store} {tid aid : String} {st2 : Store}
    (h : beginExec s tid aid = .busy st2) :
    ∃ tid2, s.account_locks aid = some tid2 ∧ tid2 ≠ tid ∧
      taskLive s.task_storage tid2 = true ∧
      st2.task_storage =
        updateTask s.task_storage tid (failUpdate (accountBusyMessage aid)) ∧
      st2.account_locks = s.account_locks := by
  unfold beginExec at h
  split at h
  next locked_by hl =>
    split at h
    next he => exact BeginOutcome.noConfusion h
    next he =>
      split at h
      next hlive =>
        injection h with h2
        refine ⟨locked_by, hl, he, hlive, ?_, ?_⟩
        · rw [← h2]
        · rw [← h2]
          exact releaseLock_not_owner
            (fun hc => he (Option.some.inj (hl ▸ hc)))
      next hlive => exact BeginOutcome.noConfusion h
  next hl => exact BeginOutcome.noConfusion h

theorem beginExec_proceed_elim {s : Store} {tid aid : String} {st2 : Store}
    (h : beginExec s tid aid = .proceed st2) :
    (s.account_locks aid = none ∨ s.account_locks aid = some tid ∨
      ∃ tid2, s.account_locks aid = some tid2 ∧ tid2 ≠ tid ∧
        taskLive s.task_storage tid2 = false) ∧
    st2.task_storage = updateTask s.task_storage tid (startUpdate aid) ∧
    st2.account_locks = mapInsert s.account_locks aid tid := by
  unfold beginExec at h
  split at h
  next locked_by hl =>
    split at h
    next he =>
      injection h with h2
      rw [← h2]
      exact ⟨Or.inr (Or.inl (he ▸ hl)), startRecord_task_storage s tid aid,
        startRecord_account_locks s tid aid⟩
    next he =>
      split at h
      next hlive => exact BeginOutcome.noConfusion h
      next hlive =>
        injection h with h2
        rw [← h2]
        refine ⟨Or.inr (Or.inr ⟨locked_by, hl, he, ?_⟩), ?_, ?_⟩
        · cases hx : taskLive s.task_storage locked_by
          · rfl
          · exact absurd hx hlive
        · exact startRecord_task_storage _ tid aid
        · show mapInsert (mapErase s.account_locks aid) aid tid = _
          exact mapInsert_mapErase s.account_locks aid tid
  next hl =>
    injection h with h2
    rw [← h2]
    exact ⟨Or.inl hl, startRecord_task_storage s tid aid,
      startRecord_account_locks s tid aid⟩

theorem finishExec_account_locks (s : Store) (tid aid : String)
    (o : Except String PostResult) :
    (finishExec s tid aid o).account_locks =
      releaseLock s.account_locks aid tid := by
  cases o <;> rfl

theorem finishExec_task_storage (s : Store) (tid aid : String)
    (o : Except String PostResult) :
    ∃ g : Task → Task,
      (finishExec s tid aid o).task_storage = updateTask s.task_storage tid g ∧
      ∀ t, (g t).status = .completed ∨ (g t).status = .failed := by
  cases o with
  | ok r => exact ⟨completeUpdate r, rfl, fun t => Or.inl rfl⟩
  | error e => exact ⟨failUpdate e, rfl, fun t => Or.inr rfl⟩

theorem cancel_task_elim {s : Store} {tid : String} {st2 : Store}
    (h : cancel_task s tid = some st2) :
    ∃ t, s.task_storage tid = some t ∧
      st2.task_storage = updateTask s.task_storage tid cancelUpdate ∧
      (st2.account_locks = s.account_locks ∨
        ∃ aid, t.account_id = some aid ∧
          st2.account_locks = releaseLock s.account_locks aid tid) := by
  unfold cancel_task at h
  split at h
  next ht => exact Option.noConfusion h
  next t ht =>
    injection h with h2
    refine ⟨t, ht, by rw [← h2], ?_⟩
    rw [← h2]
    show (match t.account_id with
      | some aid =>
          if aid ≠ "" then releaseLock s.account_locks aid tid
          else s.account_locks
      | none => s.account_locks) = s.account_locks ∨ _
    split
    next aid hacc =>
      split
      next he => exact Or.inr ⟨aid, hacc, rfl⟩
      next he => exact Or.inl rfl
    next hacc => exact Or.inl rfl

/-! ## The reachability invariant -/

theorem mapInsert_cases {β : Type} {m : String → Option β} {k k2 : String}
    {v w : β} (h : mapInsert m k v k2 = some w) :
    (k2 = k ∧ w = v) ∨ (k2 ≠ k ∧ m k2 = some w) := by
  by_cases hk : k2 = k
  · subst hk
    rw [mapInsert_self] at h
    exact Or.inl ⟨rfl, (Option.some.inj h).symm⟩
  · rw [mapInsert_ne _ _ _ hk] at h
    exact Or.inr ⟨hk, h⟩

theorem updateTask_cases {m : TaskStorage} {k k2 : String} {f : Task → Task}
    {t : Task} (h : updateTask m k f k2 = some t) :
    (k2 = k ∧ ∃ t0, m k = some t0 ∧ t = f t0) ∨ (k2 ≠ k ∧ m k2 = some t) := by
  by_cases hk : k2 = k
  · subst hk
    rw [updateTask_self] at h
    obtain ⟨t0, ht0, hf⟩ := Option.map_eq_some'.mp h
    exact Or.inl ⟨rfl, t0, ht0, hf.symm⟩
  · rw [updateTask_ne _ _ _ hk] at h
    exact Or.inr ⟨hk, h⟩

theorem mapInsert_lookup_ne {β : Type} {m : String → Option β}
    {tid tid2 : String} {w : β} (hne : tid2 ≠ tid) (v : β)
    (h : m tid2 = some w) : mapInsert m tid v tid2 = some w := by
  rw [mapInsert_ne _ _ _ hne]
  exact h

theorem taskLive_of_status {ts : TaskStorage} {tid : String} {t : Task}
    (h : ts tid = some t) (hs : statusLive t.status = true) :
    taskLive ts tid = true := by
  unfold taskLive
  rw [h]
  exact hs

/-- Inductive invariant of the server, tying the lock table, the job records
and the background phases together: every scheduled unit has a job record;
every lock is owned by the background unit, for its own account, that is
currently between its two atomic blocks; every in_progress job holds the
lock of its account; a not-yet-started unit's job is still pending (or was
cancelled while waiting); a completed/failed job's unit has exited. -/
structure Inv (s : Sys) : Prop where
  bg_task : ∀ tid bj, s.bg tid = some bj →
    ∃ t, s.store.task_storage tid = some t
  lock_owner : ∀ aid tid, s.store.account_locks aid = some tid →
    ∃ bj, s.bg tid = some bj ∧ bj.account_id = aid ∧ bj.phase = .running
  inprog_lock : ∀ tid t, s.store.task_storage tid = some t →
    t.status = .in_progress →
    ∃ aid, t.account_id = some aid ∧ s.store.account_locks aid = some tid
  sched_status : ∀ tid bj, s.bg tid = some bj → bj.phase = .scheduled →
    ∃ t, s.store.task_storage tid = some t ∧
      (t.status = .pending ∨ t.status = .cancelled)
  term_finished : ∀ tid t, s.store.task_storage tid = some t →
    t.status = .completed ∨ t.status = .failed →
    ∃ bj, s.bg tid = some bj ∧ bj.phase = .finished

theorem inv_init : Inv Sys0 where
  bg_task := fun _ _ h => Option.noConfusion h
  lock_owner := fun _ _ h => Option.noConfusion h
  inprog_lock := fun _ _ h _ => Option.noConfusion h
  sched_status := fun _ _ h _ => Option.noConfusion h
  term_finished := fun _ _ h _ => Option.noConfusion h

theorem inv_submit {s : Sys} (hinv : Inv s) {tid : String}
    (aid title content : String) (now : Nat)
    (htask : s.store.task_storage tid = none) (hbg : s.bg tid = none) :
    Inv ⟨create_blog_post s.store tid now title,
         mapInsert s.bg tid ⟨aid, title, content, Phase.scheduled⟩⟩ := by
  have hts : (create_blog_post s.store tid now title).task_storage
      = mapInsert s.store.task_storage tid (initialTask now title) := rfl
  have hlk : (create_blog_post s.store tid now title).account_locks
      = s.store.account_locks := rfl
  constructor
  case bg_task =>
    intro tid2 bj h2
    rcases mapInsert_cases h2 with ⟨he, _⟩ | ⟨hne, h2'⟩
    · subst he
      exact ⟨initialTask now title, by rw [hts, mapInsert_self]⟩
    · obtain ⟨t, ht⟩ := hinv.bg_task tid2 bj h2'
      exact ⟨t, by rw [hts, mapInsert_ne _ _ _ hne]; exact ht⟩
  case lock_owner =>
    intro aid2 tid2 h2
    rw [hlk] at h2
    obtain ⟨bj, hbj, hacc, hrun⟩ := hinv.lock_owner aid2 tid2 h2
    have hne : tid2 ≠ tid := by
      intro he
      rw [he, hbg] at hbj
      exact Option.noConfusion hbj
    exact ⟨bj, mapInsert_lookup_ne hne _ hbj, hacc, hrun⟩
  case inprog_lock =>
    intro tid2 t h2 hst
    rw [hts] at h2
    rcases mapInsert_cases h2 with ⟨he, hv⟩ | ⟨hne, h2'⟩
    · rw [hv] at hst
      exact TaskStatus.noConfusion hst
    · obtain ⟨aid2, hacc, hlock⟩ := hinv.inprog_lock tid2 t h2' hst
      exact ⟨aid2, hacc, by rw [hlk]; exact hlock⟩
  case sched_status =>
    intro tid2 bj h2 hph
    rcases mapInsert_cases h2 with ⟨he, hv⟩ | ⟨hne, h2'⟩
    · subst he
      exact ⟨initialTask now title, by rw [hts, mapInsert_self], Or.inl rfl⟩
    · obtain ⟨t, ht, hs⟩ := hinv.sched_status tid2 bj h2' hph
      exact ⟨t, by rw [hts, mapInsert_ne _ _ _ hne]; exact ht, hs⟩
  case term_finished =>
    intro tid2 t h2 hterm
    rw [hts] at h2
    rcases mapInsert_cases h2 with ⟨he, hv⟩ | ⟨hne, h2'⟩
    · rw [hv] at hterm
      rcases hterm with h | h <;> exact TaskStatus.noConfusion h
    · obtain ⟨bj, hbj, hfin⟩ := hinv.term_finished tid2 t h2' hterm
      exact ⟨bj, mapInsert_lookup_ne hne _ hbj, hfin⟩

theorem inv_start_run {s : Sys} (hinv : Inv s) {tid : String} {bj : BgJob}
    {st2 : Store} (hbg : s.bg tid = some bj) (hph : bj.phase = .scheduled)
    (hbe : beginExec s.store tid bj.account_id = .proceed st2) :
    Inv ⟨st2, mapInsert s.bg tid { bj with phase := .running }⟩ := by
  obtain ⟨hcond, hts, hlk⟩ := beginExec_proceed_elim hbe
  constructor
  case bg_task =>
    intro tid2 bj2 h2
    rcases mapInsert_cases h2 with ⟨he, _⟩ | ⟨hne, h2'⟩
    · subst he
      obtain ⟨t, ht⟩ := hinv.bg_task tid2 bj hbg
      exact ⟨startUpdate bj.account_id t, by rw [hts, updateTask_self, ht]; rfl⟩
    · obtain ⟨t, ht⟩ := hinv.bg_task tid2 bj2 h2'
      exact ⟨t, by rw [hts, updateTask_ne _ _ _ hne]; exact ht⟩
  case lock_owner =>
    intro aid2 tid2 h2
    rw [hlk] at h2
    rcases mapInsert_cases h2 with ⟨ha, hv⟩ | ⟨hane, h2'⟩
    · subst ha
      subst hv
      exact ⟨{ bj with phase := .running }, mapInsert_self _ _ _, rfl, rfl⟩
    · obtain ⟨bj2, hbj2, hacc2, hrun2⟩ := hinv.lock_owner aid2 tid2 h2'
      have hne : tid2 ≠ tid := by
        intro he
        rw [he, hbg] at hbj2
        have hb : bj2 = bj := (Option.some.inj hbj2).symm
        rw [hb, hph] at hrun2
        exact Phase.noConfusion hrun2
      exact ⟨bj2, mapInsert_lookup_ne hne _ hbj2, hacc2, hrun2⟩
  case inprog_lock =>
    intro tid2 t h2 hst
    rw [hts] at h2
    rcases updateTask_cases h2 with ⟨he, t0, ht0, hf⟩ | ⟨hne, h2'⟩
    · subst he
      refine ⟨bj.account_id, by rw [hf]; rfl, ?_⟩
      rw [hlk]
      exact mapInsert_self _ _ _
    · obtain ⟨aid2, hacc, hlock⟩ := hinv.inprog_lock tid2 t h2' hst
      refine ⟨aid2, hacc, ?_⟩
      rw [hlk]
      by_cases ha : aid2 = bj.account_id
      · exfalso
        subst ha
        have hlive : taskLive s.store.task_storage tid2 = true :=
          taskLive_of_status h2' (by rw [hst]; rfl)
        rcases hcond with hc | hc | ⟨tid3, hc, hcne, hcdead⟩
        · rw [hc] at hlock
          exact Option.noConfusion hlock
        · rw [hc] at hlock
          exact hne (Option.some.inj hlock).symm
        · rw [hc] at hlock
          have h3 : tid3 = tid2 := Option.some.inj hlock
          subst h3
          rw [hlive] at hcdead
          exact Bool.noConfusion hcdead
      · rw [mapInsert_ne _ _ _ ha]
        exact hlock
  case sched_status =>
    intro tid2 bj2 h2 hph2
    rcases mapInsert_cases h2 with ⟨he, hv⟩ | ⟨hne, h2'⟩
    · rw [hv] at hph2
      exact Phase.noConfusion hph2
    · obtain ⟨t, ht, hs⟩ := hinv.sched_status tid2 bj2 h2' hph2
      exact ⟨t, by rw [hts, updateTask_ne _ _ _ hne]; exact ht, hs⟩
  case term_finished =>
    intro tid2 t h2 hterm
    rw [hts] at h2
    rcases updateTask_cases h2 with ⟨he, t0, ht0, hf⟩ | ⟨hne, h2'⟩
    · exfalso
      rw [hf] at hterm
      rcases hterm with h | h <;> exact TaskStatus.noConfusion h
    · obtain ⟨bj2, hbj2, hfin⟩ := hinv.term_finished tid2 t h2' hterm
      exact ⟨bj2, mapInsert_lookup_ne hne _ hbj2, hfin⟩

theorem inv_start_busy {s : Sys} (hinv : Inv s) {tid : String} {bj : BgJob}
    {st2 : Store} (hbg : s.bg tid = some bj) (hph : bj.phase = .scheduled)
    (hbe : beginExec s.store tid bj.account_id = .busy st2) :
    Inv ⟨st2, mapInsert s.bg tid { bj with phase := .finished }⟩ := by
  obtain ⟨tid3, hl3, hne3, hlive3, hts, hlk⟩ := beginExec_busy_elim hbe
  constructor
  case bg_task =>
    intro tid2 bj2 h2
    rcases mapInsert_cases h2 with ⟨he, _⟩ | ⟨hne, h2'⟩
    · subst he
      obtain ⟨t, ht⟩ := hinv.bg_task tid2 bj hbg
      exact ⟨failUpdate (accountBusyMessage bj.account_id) t, by
        rw [hts, updateTask_self, ht]; rfl⟩
    · obtain ⟨t, ht⟩ := hinv.bg_task tid2 bj2 h2'
      exact ⟨t, by rw [hts, updateTask_ne _ _ _ hne]; exact ht⟩
  case lock_owner =>
    intro aid2 tid2 h2
    rw [hlk] at h2
    obtain ⟨bj2, hbj2, hacc2, hrun2⟩ := hinv.lock_owner aid2 tid2 h2
    have hne : tid2 ≠ tid := by
      intro he
      rw [he, hbg] at hbj2
      have hb : bj2 = bj := (Option.some.inj hbj2).symm
      rw [hb, hph] at hrun2
      exact Phase.noConfusion hrun2
    exact ⟨bj2, mapInsert_lookup_ne hne _ hbj2, hacc2, hrun2⟩
  case inprog_lock =>
    intro tid2 t h2 hst
    rw [hts] at h2
    rcases updateTask_cases h2 with ⟨he, t0, ht0, hf⟩ | ⟨hne, h2'⟩
    · exfalso
      rw [hf] at hst
      exact TaskStatus.noConfusion hst
    · obtain ⟨aid2, hacc, hlock⟩ := hinv.inprog_lock tid2 t h2' hst
      exact ⟨aid2, hacc, by rw [hlk]; exact hlock⟩
  case sched_status =>
    intro tid2 bj2 h2 hph2
    rcases mapInsert_cases h2 with ⟨he, hv⟩ | ⟨hne, h2'⟩
    · rw [hv] at hph2
      exact Phase.noConfusion hph2
    · obtain ⟨t, ht, hs⟩ := hinv.sched_status tid2 bj2 h2' hph2
      exact ⟨t, by rw [hts, updateTask_ne _ _ _ hne]; exact ht, hs⟩
  case term_finished =>
    intro tid2 t h2 hterm
    rw [hts] at h2
    rcases updateTask_cases h2 with ⟨he, t0, ht0, hf⟩ | ⟨hne, h2'⟩
    · subst he
      exact ⟨{ bj with phase := .finished }, mapInsert_self _ _ _, rfl⟩
    · obtain ⟨bj2, hbj2, hfin⟩ := hinv.term_finished tid2 t h2' hterm
      exact ⟨bj2, mapInsert_lookup_ne hne _ hbj2, hfin⟩

theorem inv_finish {s : Sys} (hinv : Inv s) {tid : String} {bj : BgJob}
    (outcome : Except String PostResult)
    (hbg : s.bg tid = some bj) (_hph : bj.phase = .running) :
    Inv ⟨finishExec s.store tid bj.account_id outcome,
         mapInsert s.bg tid { bj with phase := .finished }⟩ := by
  obtain ⟨g, hts, hgs⟩ := finishExec_task_storage s.store tid bj.account_id outcome
  have hlk := finishExec_account_locks s.store tid bj.account_id outcome
  constructor
  case bg_task =>
    intro tid2 bj2 h2
    rcases mapInsert_cases h2 with ⟨he, _⟩ | ⟨hne, h2'⟩
    · subst he
      obtain ⟨t, ht⟩ := hinv.bg_task tid2 bj hbg
      exact ⟨g t, by rw [hts, updateTask_self, ht]; rfl⟩
    · obtain ⟨t, ht⟩ := hinv.bg_task tid2 bj2 h2'
      exact ⟨t, by rw [hts, updateTask_ne _ _ _ hne]; exact ht⟩
  case lock_owner =>
    intro aid2 tid2 h2
    rw [hlk] at h2
    have h2' := releaseLock_sub h2
    obtain ⟨bj2, hbj2, hacc2, hrun2⟩ := hinv.lock_owner aid2 tid2 h2'
    have hne : tid2 ≠ tid := by
      intro he
      subst he
      rw [hbg] at hbj2
      have hb : bj2 = bj := (Option.some.inj hbj2).symm
      rw [hb] at hacc2
      rw [← hacc2] at h2
      exact releaseLock_self_ne _ _ _ h2
    exact ⟨bj2, mapInsert_lookup_ne hne _ hbj2, hacc2, hrun2⟩
  case inprog_lock =>
    intro tid2 t h2 hst
    rw [hts] at h2
    rcases updateTask_cases h2 with ⟨he, t0, ht0, hf⟩ | ⟨hne, h2'⟩
    · exfalso
      rw [hf] at hst
      rcases hgs t0 with h | h <;> rw [hst] at h <;> exact TaskStatus.noConfusion h
    · obtain ⟨aid2, hacc, hlock⟩ := hinv.inprog_lock tid2 t h2' hst
      refine ⟨aid2, hacc, ?_⟩
      rw [hlk]
      exact releaseLock_preserve hlock hne
  case sched_status =>
    intro tid2 bj2 h2 hph2
    rcases mapInsert_cases h2 with ⟨he, hv⟩ | ⟨hne, h2'⟩
    · rw [hv] at hph2
      exact Phase.noConfusion hph2
    · obtain ⟨t, ht, hs⟩ := hinv.sched_status tid2 bj2 h2' hph2
      exact ⟨t, by rw [hts, updateTask_ne _ _ _ hne]; exact ht, hs⟩
  case term_finished =>
    intro tid2 t h2 hterm
    rw [hts] at h2
    rcases updateTask_cases h2 with ⟨he, _⟩ | ⟨hne, h2'⟩
    · subst he
      exact ⟨{ bj with phase := .finished }, mapInsert_self _ _ _, rfl⟩
    · obtain ⟨bj2, hbj2, hfin⟩ := hinv.term_finished tid2 t h2' hterm
      exact ⟨bj2, mapInsert_lookup_ne hne _ hbj2, hfin⟩

theorem inv_cancel {s : Sys} (hinv : Inv s) {tid : String} {st2 : Store}
    (hc : cancel_task s.store tid = some st2) : Inv ⟨st2, s.bg⟩ := by
  obtain ⟨t, ht, hts, hlk⟩ := cancel_task_elim hc
  have hsub : ∀ aid2 tid2, st2.account_locks aid2 = some tid2 →
      s.store.account_locks aid2 = some tid2 := by
    intro aid2 tid2 h2
    rcases hlk with h | ⟨aid, hacc, h⟩
    · rw [h] at h2
      exact h2
    · rw [h] at h2
      exact releaseLock_sub h2
  have hpres : ∀ aid2 tid2, s.store.account_locks aid2 = some tid2 →
      tid2 ≠ tid → st2.account_locks aid2 = some tid2 := by
    intro aid2 tid2 h2 hne
    rcases hlk with h | ⟨aid, hacc, h⟩
    · rw [h]
      exact h2
    · rw [h]
      exact releaseLock_preserve h2 hne
  constructor
  case bg_task =>
    intro tid2 bj2 h2
    obtain ⟨t2, ht2⟩ := hinv.bg_task tid2 bj2 h2
    by_cases he : tid2 = tid
    · subst he
      exact ⟨cancelUpdate t2, by rw [hts, updateTask_self, ht2]; rfl⟩
    · exact ⟨t2, by rw [hts, updateTask_ne _ _ _ he]; exact ht2⟩
  case lock_owner =>
    intro aid2 tid2 h2
    exact hinv.lock_owner aid2 tid2 (hsub _ _ h2)
  case inprog_lock =>
    intro tid2 t2 h2 hst
    rw [hts] at h2
    rcases updateTask_cases h2 with ⟨he, t0, ht0, hf⟩ | ⟨hne, h2'⟩
    · exfalso
      rw [hf] at hst
      exact TaskStatus.noConfusion hst
    · obtain ⟨aid2, hacc, hlock⟩ := hinv.inprog_lock tid2 t2 h2' hst
      exact ⟨aid2, hacc, hpres _ _ hlock hne⟩
  case sched_status =>
    intro tid2 bj2 h2 hph2
    by_cases he : tid2 = tid
    · subst he
      exact ⟨cancelUpdate t, by rw [hts, updateTask_self, ht]; rfl, Or.inr rfl⟩
    · obtain ⟨t2, ht2, hs⟩ := hinv.sched_status tid2 bj2 h2 hph2
      exact ⟨t2, by rw [hts, updateTask_ne _ _ _ he]; exact ht2, hs⟩
  case term_finished =>
    intro tid2 t2 h2 hterm
    rw [hts] at h2
    rcases updateTask_cases h2 with ⟨he, t0, ht0, hf⟩ | ⟨hne, h2'⟩
    · exfalso
      rw [hf] at hterm
      rcases hterm with h | h <;> exact TaskStatus.noConfusion h
    · exact hinv.term_finished tid2 t2 h2' hterm

theorem inv_step {s s2 : Sys} (hinv : Inv s) (hstep : Step s s2) : Inv s2 := by
  cases hstep with
  | submit tid aid title content now s3 htask hbg heq =>
      subst heq
      exact inv_submit hinv aid title content now htask hbg
  | start_busy tid bj st2 s3 hbg hph hbe heq =>
      subst heq
      exact inv_start_busy hinv hbg hph hbe
  | start_run tid bj st2 s3 hbg hph hbe heq =>
      subst heq
      exact inv_start_run hinv hbg hph hbe
  | finish tid bj outcome s3 hbg hph heng heq =>
      subst heq
      exact inv_finish hinv outcome hbg hph
  | cancel tid st2 s3 hc heq =>
      subst heq
      exact inv_cancel hinv hc

theorem inv_reachable {s : Sys} (h : Reachable s) : Inv s := by
  induction h with
  | refl => exact inv_init
  | tail hsteps hstep ih => exact inv_step ih hstep

/-! ## Status helper lemmas -/

theorem statusLive_true_elim {st : TaskStatus} (h : statusLive st = true) :
    st = .pending ∨ st = .in_progress := by
  cases st
  · exact Or.inl rfl
  · exact Or.inr rfl
  · exact Bool.noConfusion h
  · exact Bool.noConfusion h
  · exact Bool.noConfusion h

theorem statusLive_eq_false {st : TaskStatus} (hp : st ≠ .pending)
    (hip : st ≠ .in_progress) : statusLive st = false := by
  cases st
  · exact absurd rfl hp
  · exact absurd rfl hip
  · rfl
  · rfl
  · rfl

/-! ## A concrete execution:
submit job t1 for account "a", cancel it while still pending, then let its
scheduled background unit run anyway (nothing in
`execute_blog_posting_task` checks the task status) and let the engine
succeed via the Selenium fallback. -/

def e0 : Sys := Sys0

def e1 : Sys :=
  ⟨create_blog_post Sys0.store "t1" 0 "T",
   mapInsert Sys0.bg "t1" ⟨"a", "T", "C", Phase.scheduled⟩⟩

def e2 : Sys :=
  ⟨⟨updateTask e1.store.task_storage "t1" cancelUpdate,
    e1.store.account_locks⟩, e1.bg⟩

def e3 : Sys :=
  ⟨startRecord e2.store "t1" "a",
   mapInsert e1.bg "t1" ⟨"a", "T", "C", Phase.running⟩⟩

/-- The engine outcome used in the trace: Puppeteer unavailable, Selenium
succeeds. -/
def exOutcome : Except String PostResult :=
  post_to_naver_blog false none none 0 "sid" "T" "C"

def e4 : Sys :=
  ⟨finishExec e3.store "t1" "a" exOutcome,
   mapInsert e3.bg "t1" ⟨"a", "T", "C", Phase.finished⟩⟩

theorem step_e0_e1 : Step e0 e1 :=
  Step.submit e0 "t1" "a" "T" "C" 0 e1 rfl rfl rfl

theorem cancel_e1 : cancel_task e1.store "t1" = some e2.store := rfl

theorem step_e1_e2 : Step e1 e2 :=
  Step.cancel e1 "t1" e2.store e2 cancel_e1 rfl

theorem begin_e2 :
    beginExec e2.store "t1" "a" = .proceed (startRecord e2.store "t1" "a") :=
  rfl

theorem step_e2_e3 : Step e2 e3 :=
  Step.start_run e2 "t1" ⟨"a", "T", "C", Phase.scheduled⟩
    (startRecord e2.store "t1" "a") e3 rfl rfl begin_e2 rfl

theorem engineBehavior_exOutcome : EngineBehavior "T" "C" exOutcome :=
  ⟨false, none, none, 0, "sid", rfl⟩

theorem step_e3_e4 : Step e3 e4 :=
  Step.finish e3 "t1" ⟨"a", "T", "C", Phase.running⟩ exOutcome e4 rfl rfl
    engineBehavior_exOutcome rfl

theorem reachable_e1 : Reachable e1 :=
  Relation.ReflTransGen.single step_e0_e1

theorem reachable_e2 : Reachable e2 := reachable_e1.tail step_e1_e2

theorem reachable_e3 : Reachable e3 := reachable_e2.tail step_e2_e3

theorem reachable_e4 : Reachable e4 := reachable_e3.tail step_e3_e4

/-- The record of t1 while its execution is in flight. -/
def e3Task : Task :=
  ⟨.in_progress, 20, 0, "T", none, none, some "a"⟩

theorem e3_t1 : e3.store.task_storage "t1" = some e3Task := rfl

/-- The record of t1 after the engine succeeded — completed, even though the
job was cancelled at e2. -/
def e4Task : Task :=
  ⟨.completed, 100, 0, "T", some (seleniumResult "T" "C" 0 "sid"), none,
   some "a"⟩

theorem e4_t1 : e4.store.task_storage "t1" = some e4Task := rfl

/-- Cancelling the completed job t1 at e4 (the handler sets the status to
"cancelled" unconditionally, main.py:250). -/
def e5store : Store :=
  ⟨updateTask e4.store.task_storage "t1" cancelUpdate,
   releaseLock e4.store.account_locks "a" "t1"⟩

theorem cancel_e4 : cancel_task e4.store "t1" = some e5store := rfl

def e5 : Sys := ⟨e5store, e4.bg⟩

theorem step_e4_e5 : Step e4 e5 := Step.cancel e4 "t1" e5store e5 cancel_e4 rfl

/-! ## Concrete stores for witnesses -/

/-- A store holding a single pending job t1 and no locks. -/
def cs0 : Store :=
  ⟨mapInsert (fun _ => none) "t1" (initialTask 0 "T"), fun _ => none⟩

/-- A store with a stale lock: account "a" is locked by t0, whose job has
already failed; t1 is pending. -/
def staleTask : Task := ⟨.failed, 0, 0, "T0", none, some "boom", some "a"⟩

def cs2 : Store :=
  ⟨mapInsert (mapInsert (fun _ => none) "t0" staleTask) "t1" (initialTask 0 "T"),
   mapInsert (fun _ => none) "a" "t0"⟩

/-- A store with a live lock: account "a" is locked by t0, which is still
in_progress; t1 is pending. -/
def busyTask : Task := ⟨.in_progress, 20, 0, "T0", none, none, some "a"⟩

def cs3 : Store :=
  ⟨mapInsert (mapInsert (fun _ => none) "t0" busyTask) "t1" (initialTask 0 "T"),
   mapInsert (fun _ => none) "a" "t0"⟩

def cs3busy : Store :=
  ⟨updateTask cs3.task_storage "t1" (failUpdate (accountBusyMessage "a")),
   cs3.account_locks⟩

theorem cs3_busy : beginExec cs3 "t1" "a" = .busy cs3busy := rfl

/-- A store holding a single failed job t1 (with an error string) and no
locks. -/
def failedTask : Task := ⟨.failed, 0, 0, "T", none, some "boom", none⟩

def cs1 : Store :=
  ⟨mapInsert (fun _ => none) "t1" failedTask, fun _ => none⟩

def cs1c : Store :=
  ⟨updateTask cs1.task_storage "t1" cancelUpdate, cs1.account_locks⟩

theorem cancel_cs1 : cancel_task cs1 "t1" = some cs1c := rfl

/-! ## Substring occurrence (used to state "the error mentions …") -/

/-- Does `needle` occur as a contiguous run inside the second list? -/
def subOccurs (needle : List Char) : List Char → Bool
  | [] => needle.isEmpty
  | c :: rest => needle.isPrefixOf (c :: rest) || subOccurs needle rest

/-- The string `e` textually mentions `sub`. -/
def mentions (e sub : String) : Prop :=
  subOccurs sub.toList e.toList = true

/-! ## The claims -/

/-- C1: per-account mutual exclusion.  In every reachable state of the
interleaving semantics, at most one job is in status in_progress for any
given account: two in_progress jobs with the same `account_id` must be the
same job.  This rests on the check-and-acquire of main.py:110-125 being a
single atomic block (it contains no await), so a job is in_progress only
while it holds its account's lock. -/
theorem c1_per_account_mutual_exclusion :
    ∀ s, Reachable s → ∀ tid1 tid2 t1 t2,
      s.store.task_storage tid1 = some t1 →
      s.store.task_storage tid2 = some t2 →
      t1.status = .in_progress → t2.status = .in_progress →
      t1.account_id = t2.account_id → tid1 = tid2 := by
  intro s hreach tid1 tid2 t1 t2 h1 h2 hs1 hs2 hacc
  have hinv := inv_reachable hreach
  obtain ⟨aid1, hacc1, hlock1⟩ := hinv.inprog_lock tid1 t1 h1 hs1
  obtain ⟨aid2, hacc2, hlock2⟩ := hinv.inprog_lock tid2 t2 h2 hs2
  have ha : aid1 = aid2 := by
    rw [hacc1, hacc2] at hacc
    exact Option.some.inj hacc
  subst ha
  rw [hlock1] at hlock2
  exact Option.some.inj hlock2

/-- Witness for C1 at the reachable state e3, whose only job t1 is
in_progress for account "a". -/
theorem c1_mutual_exclusion_witness : ("t1" : String) = "t1" :=
  c1_per_account_mutual_exclusion e3 reachable_e3 "t1" "t1" e3Task e3Task
    e3_t1 e3_t1 rfl rfl rfl

/-- C2: on every exit of a job's background unit (engine success, engine
failure, or the AccountBusy rejection — every path of the except/finally
blocks at main.py:150-163), the job ends in a terminal status (completed or
failed) and no account-lock entry is owned by it.  The embedding's step
functions are total, which reflects that the except/finally structure lets
no exception escape the background unit. -/
theorem c2_lock_released_on_every_exit :
    ∀ s s2, Reachable s → Step s s2 →
      ∀ tid bj bj2, s.bg tid = some bj → bj.phase ≠ .finished →
        s2.bg tid = some bj2 → bj2.phase = .finished →
        (∃ t, s2.store.task_storage tid = some t ∧
          (t.status = .completed ∨ t.status = .failed)) ∧
        ∀ aid, s2.store.account_locks aid ≠ some tid := by
  intro s s2 hreach hstep tid bj bj2 hbj hnfin hbj2 hfin
  have hinv := inv_reachable hreach
  cases hstep with
  | submit tid3 aid title content now s3 htask hbg heq =>
      subst heq
      exfalso
      rcases mapInsert_cases hbj2 with ⟨he, hv⟩ | ⟨hne, h2'⟩
      · rw [hv] at hfin
        exact Phase.noConfusion hfin
      · rw [hbj] at h2'
        exact hnfin (by rw [Option.some.inj h2']; exact hfin)
  | start_busy tid3 bj3 st2 s3 hbg hph hbe heq =>
      subst heq
      rcases mapInsert_cases hbj2 with ⟨he, hv⟩ | ⟨hne, h2'⟩
      · subst he
        have hb : bj = bj3 := by
          rw [hbg] at hbj
          exact (Option.some.inj hbj).symm
        obtain ⟨tid4, hl4, hne4, hlive4, hts, hlk⟩ := beginExec_busy_elim hbe
        constructor
        · obtain ⟨t, ht⟩ := hinv.bg_task tid bj hbj
          refine ⟨failUpdate (accountBusyMessage bj3.account_id) t, ?_, Or.inr rfl⟩
          show st2.task_storage tid = _
          rw [hts, updateTask_self, ht]
          rfl
        · intro aid hcontra
          have hcontra' : s.store.account_locks aid = some tid := by
            rw [← hlk]
            exact hcontra
          obtain ⟨bjx, hbjx, _, hrunx⟩ := hinv.lock_owner aid tid hcontra'
          rw [hbj] at hbjx
          have hx : bj = bjx := Option.some.inj hbjx
          rw [← hx, hb, hph] at hrunx
          exact Phase.noConfusion hrunx
      · exfalso
        rw [hbj] at h2'
        exact hnfin (by rw [Option.some.inj h2']; exact hfin)
  | start_run tid3 bj3 st2 s3 hbg hph hbe heq =>
      subst heq
      exfalso
      rcases mapInsert_cases hbj2 with ⟨he, hv⟩ | ⟨hne, h2'⟩
      · rw [hv] at hfin
        exact Phase.noConfusion hfin
      · rw [hbj] at h2'
        exact hnfin (by rw [Option.some.inj h2']; exact hfin)
  | finish tid3 bj3 outcome s3 hbg hph heng heq =>
      subst heq
      rcases mapInsert_cases hbj2 with ⟨he, hv⟩ | ⟨hne, h2'⟩
      · subst he
        have hb : bj = bj3 := by
          rw [hbg] at hbj
          exact (Option.some.inj hbj).symm
        obtain ⟨g, hts, hgs⟩ :=
          finishExec_task_storage s.store tid bj3.account_id outcome
        have hlk := finishExec_account_locks s.store tid bj3.account_id outcome
        constructor
        · obtain ⟨t, ht⟩ := hinv.bg_task tid bj hbj
          refine ⟨g t, ?_, hgs t⟩
          show (finishExec s.store tid bj3.account_id outcome).task_storage tid = _
          rw [hts, updateTask_self, ht]
          rfl
        · intro aid hcontra
          have hcontra' :
              releaseLock s.store.account_locks bj3.account_id tid aid
                = some tid := by
            rw [← hlk]
            exact hcontra
          have hsub := releaseLock_sub hcontra'
          obtain ⟨bjx, hbjx, haccx, _⟩ := hinv.lock_owner aid tid hsub
          rw [hbj] at hbjx
          have hx : bj = bjx := Option.some.inj hbjx
          rw [← hx, hb] at haccx
          rw [← haccx] at hcontra'
          exact releaseLock_self_ne _ _ _ hcontra'
      · exfalso
        rw [hbj] at h2'
        exact hnfin (by rw [Option.some.inj h2']; exact hfin)
  | cancel tid3 st2 s3 hc heq =>
      subst heq
      exfalso
      rw [hbj] at hbj2
      exact hnfin (by rw [Option.some.inj hbj2]; exact hfin)

/-- Witness for C2 at the finishing step e3 → e4 of job t1. -/
theorem c2_release_witness :
    (∃ t, e4.store.task_storage "t1" = some t ∧
      (t.status = .completed ∨ t.status = .failed)) ∧
    e4.store.account_locks "a" ≠ some "t1" :=
  ⟨(c2_lock_released_on_every_exit e3 e4 reachable_e3 step_e3_e4 "t1"
      ⟨"a", "T", "C", Phase.running⟩ ⟨"a", "T", "C", Phase.finished⟩
      rfl (by decide) rfl rfl).1,
   (c2_lock_released_on_every_exit e3 e4 reachable_e3 step_e3_e4 "t1"
      ⟨"a", "T", "C", Phase.running⟩ ⟨"a", "T", "C", Phase.finished⟩
      rfl (by decide) rfl rfl).2 "a"⟩

/-- Auxiliary step lemma: while a job's background unit is still only
scheduled (its first atomic block has not run), a cancelled status on it is
stable — every step either keeps the job cancelled or advances that job's
phase away from scheduled. -/
theorem cancelled_while_scheduled {tid : String} {s s2 : Sys}
    (hstep : Step s s2) (hbg : ∃ bj, s.bg tid = some bj)
    (hq : ∀ bj, s.bg tid = some bj → bj.phase = .scheduled →
      ∃ t, s.store.task_storage tid = some t ∧ t.status = .cancelled) :
    (∃ bj, s2.bg tid = some bj) ∧
    (∀ bj, s2.bg tid = some bj → bj.phase = .scheduled →
      ∃ t, s2.store.task_storage tid = some t ∧ t.status = .cancelled) := by
  obtain ⟨bj0, hbj0⟩ := hbg
  cases hstep with
  | submit tid3 aid title content now s3 htask hbgn heq =>
      subst heq
      have hne : tid ≠ tid3 := by
        intro he
        rw [he, hbgn] at hbj0
        exact Option.noConfusion hbj0
      refine ⟨⟨bj0, mapInsert_lookup_ne hne _ hbj0⟩, ?_⟩
      intro bj hbj hph
      rcases mapInsert_cases hbj with ⟨he2, _⟩ | ⟨_, hbj2⟩
      · exact absurd he2 hne
      · obtain ⟨t, ht, hs⟩ := hq bj hbj2 hph
        refine ⟨t, ?_, hs⟩
        show mapInsert s.store.task_storage tid3 (initialTask now title) tid
          = some t
        rw [mapInsert_ne _ _ _ hne]
        exact ht
  | start_busy tid3 bj3 st2 s3 hbgn hph3 hbe heq =>
      subst heq
      obtain ⟨_, _, _, _, hts, _⟩ := beginExec_busy_elim hbe
      by_cases he : tid = tid3
      · subst he
        refine ⟨⟨{ bj3 with phase := .finished }, mapInsert_self _ _ _⟩, ?_⟩
        intro bj hbj hph
        rcases mapInsert_cases hbj with ⟨_, hv⟩ | ⟨hne2, _⟩
        · rw [hv] at hph
          exact Phase.noConfusion hph
        · exact absurd rfl hne2
      · refine ⟨⟨bj0, mapInsert_lookup_ne he _ hbj0⟩, ?_⟩
        intro bj hbj hph
        rcases mapInsert_cases hbj with ⟨he2, _⟩ | ⟨_, hbj2⟩
        · exact absurd he2 he
        · obtain ⟨t, ht, hs⟩ := hq bj hbj2 hph
          refine ⟨t, ?_, hs⟩
          show st2.task_storage tid = some t
          rw [hts, updateTask_ne _ _ _ he]
          exact ht
  | start_run tid3 bj3 st2 s3 hbgn hph3 hbe heq =>
      subst heq
      obtain ⟨_, hts, _⟩ := beginExec_proceed_elim hbe
      by_cases he : tid = tid3
      · subst he
        refine ⟨⟨{ bj3 with phase := .running }, mapInsert_self _ _ _⟩, ?_⟩
        intro bj hbj hph
        rcases mapInsert_cases hbj with ⟨_, hv⟩ | ⟨hne2, _⟩
        · rw [hv] at hph
          exact Phase.noConfusion hph
        · exact absurd rfl hne2
      · refine ⟨⟨bj0, mapInsert_lookup_ne he _ hbj0⟩, ?_⟩
        intro bj hbj hph
        rcases mapInsert_cases hbj with ⟨he2, _⟩ | ⟨_, hbj2⟩
        · exact absurd he2 he
        · obtain ⟨t, ht, hs⟩ := hq bj hbj2 hph
          refine ⟨t, ?_, hs⟩
          show st2.task_storage tid = some t
          rw [hts, updateTask_ne _ _ _ he]
          exact ht
  | finish tid3 bj3 outcome s3 hbgn hph3 heng heq =>
      subst heq
      obtain ⟨g, hts, _⟩ :=
        finishExec_task_storage s.store tid3 bj3.account_id outcome
      by_cases he : tid = tid3
      · subst he
        refine ⟨⟨{ bj3 with phase := .finished }, mapInsert_self _ _ _⟩, ?_⟩
        intro bj hbj hph
        rcases mapInsert_cases hbj with ⟨_, hv⟩ | ⟨hne2, _⟩
        · rw [hv] at hph
          exact Phase.noConfusion hph
        · exact absurd rfl hne2
      · refine ⟨⟨bj0, mapInsert_lookup_ne he _ hbj0⟩, ?_⟩
        intro bj hbj hph
        rcases mapInsert_cases hbj with ⟨he2, _⟩ | ⟨_, hbj2⟩
        · exact absurd he2 he
        · obtain ⟨t, ht, hs⟩ := hq bj hbj2 hph
          refine ⟨t, ?_, hs⟩
          show (finishExec s.store tid3 bj3.account_id outcome).task_storage tid
            = some t
          rw [hts, updateTask_ne _ _ _ he]
          exact ht
  | cancel tid3 st2 s3 hc heq =>
      subst heq
      obtain ⟨t3, ht3, hts, _⟩ := cancel_task_elim hc
      refine ⟨⟨bj0, hbj0⟩, ?_⟩
      intro bj hbj hph
      by_cases he : tid = tid3
      · subst he
        refine ⟨cancelUpdate t3, ?_, rfl⟩
        show st2.task_storage tid = _
        rw [hts, updateTask_self, ht3]
        rfl
      · obtain ⟨t, ht, hs⟩ := hq bj hbj hph
        refine ⟨t, ?_, hs⟩
        show st2.task_storage tid = some t
        rw [hts, updateTask_ne _ _ _ he]
        exact ht

/-- C3 as stated by the spec: cancelling a pending job means its status is
never completed at any later point, for every interleaving with the
scheduled background execution. -/
def claimC3 : Prop :=
  ∀ (s : Sys), Reachable s →
    ∀ (tid : String) (t : Task) (st2 : Store),
      s.store.task_storage tid = some t → t.status = .pending →
      cancel_task s.store tid = some st2 →
      ∀ s4, Relation.ReflTransGen Step ⟨st2, s.bg⟩ s4 →
        ∀ t4, s4.store.task_storage tid = some t4 → t4.status ≠ .completed

/-- C3 fails on the code: `execute_blog_posting_task` never looks at the
task's status (main.py:109-133), so if t1 is cancelled while still pending
(before its background unit ran), the unit later runs anyway, flips the job
to in_progress and, on engine success, to completed.  The trace
e1 → e2 (cancel of pending t1) → e3 (start) → e4 (engine success) ends with
t1 completed. -/
theorem c3_counterexample : ¬ claimC3 := fun h =>
  (h e1 reachable_e1 "t1" (initialTask 0 "T") e2.store rfl rfl cancel_e1 e4
      ((Relation.ReflTransGen.single step_e2_e3).tail step_e3_e4)
      e4Task e4_t1) rfl

/-- C3 amended: cancelling a pending job does set its status to "cancelled"
immediately, and the cancelled status persists as long as the job's
background unit has not yet started (its phase is still scheduled); but once
the scheduled unit runs, it may overwrite the status — up to "completed" on
engine success — which is what the counterexample trace exhibits. -/
theorem c3_cancel_pending_amended :
    ∀ (s : Sys) (tid : String) (t : Task) (st2 : Store),
      s.store.task_storage tid = some t → t.status = .pending →
      (∃ bj, s.bg tid = some bj) →
      cancel_task s.store tid = some st2 →
      (∃ t2, st2.task_storage tid = some t2 ∧ t2.status = .cancelled) ∧
      ∀ s4, Relation.ReflTransGen Step ⟨st2, s.bg⟩ s4 →
        ∀ bj, s4.bg tid = some bj → bj.phase = .scheduled →
          ∃ t4, s4.store.task_storage tid = some t4 ∧
            t4.status = .cancelled := by
  intro s tid t st2 ht hpend hbg hc
  obtain ⟨t3, ht3, hts, _⟩ := cancel_task_elim hc
  constructor
  · refine ⟨cancelUpdate t3, ?_, rfl⟩
    rw [hts, updateTask_self, ht3]
    rfl
  · intro s4 htrace
    have hmain : (∃ bj, s4.bg tid = some bj) ∧
        (∀ bj, s4.bg tid = some bj → bj.phase = .scheduled →
          ∃ t4, s4.store.task_storage tid = some t4 ∧
            t4.status = .cancelled) := by
      induction htrace with
      | refl =>
          refine ⟨hbg, ?_⟩
          intro bj hbj hph
          refine ⟨cancelUpdate t3, ?_, rfl⟩
          show st2.task_storage tid = _
          rw [hts, updateTask_self, ht3]
          rfl
      | tail hsteps hstep ih =>
          exact cancelled_while_scheduled hstep ih.1 ih.2
    exact hmain.2

/-- Witness for the amended C3: cancelling the pending job t1 at e1 leaves
it cancelled, and it is still cancelled at the cancel-state itself (a trace
of length zero whose phase is still scheduled). -/
theorem c3_amended_witness :
    (∃ t2, e2.store.task_storage "t1" = some t2 ∧ t2.status = .cancelled) ∧
    (∃ t4, e2.store.task_storage "t1" = some t4 ∧ t4.status = .cancelled) := by
  have h := c3_cancel_pending_amended e1 "t1" (initialTask 0 "T") e2.store rfl
    rfl ⟨⟨"a", "T", "C", Phase.scheduled⟩, rfl⟩ cancel_e1
  exact ⟨h.1, h.2 ⟨e2.store, e1.bg⟩ Relation.ReflTransGen.refl
    ⟨"a", "T", "C", Phase.scheduled⟩ rfl rfl⟩

/-- C4 as stated by the spec: once a job is terminal (here completed or
failed), a further cancel is a no-op on its record (or rejected; the 404
rejection case is `cancel_task = none`, so an accepted cancel must leave the
record unchanged). -/
def claimC4 : Prop :=
  ∀ s, Reachable s → ∀ tid t, s.store.task_storage tid = some t →
    (t.status = .completed ∨ t.status = .failed) →
    ∀ st2, cancel_task s.store tid = some st2 →
      st2.task_storage tid = some t

/-- C4 fails on the code: `cancel_task` sets the status to "cancelled"
unconditionally (main.py:250), so cancelling the completed job t1 in the
reachable state e4 overwrites completed with cancelled. -/
theorem c4_counterexample : ¬ claimC4 := by
  intro h
  have h2 := h e4 reachable_e4 "t1" e4Task e4_t1 (Or.inl rfl) e5store cancel_e4
  have h3 : some (cancelUpdate e4Task) = some e4Task := h2
  have h4 := congrArg Task.status (Option.some.inj h3)
  exact TaskStatus.noConfusion h4

/-- C4 amended: in a reachable state, a completed or failed job's record is
left unchanged by every step except a cancel of that very job, which changes
exactly its status field to "cancelled" (so cancel on a terminal job is not
a no-op and is not rejected: it overwrites the terminal status). -/
theorem c4_terminal_frame_amended :
    ∀ s s2, Reachable s → Step s s2 →
      ∀ tid t, s.store.task_storage tid = some t →
        (t.status = .completed ∨ t.status = .failed) →
        s2.store.task_storage tid = some t ∨
        s2.store.task_storage tid = some { t with status := .cancelled } := by
  intro s s2 hreach hstep tid t ht hterm
  have hinv := inv_reachable hreach
  obtain ⟨bj, hbj, hfin⟩ := hinv.term_finished tid t ht hterm
  cases hstep with
  | submit tid3 aid title content now s3 htask hbg heq =>
      subst heq
      left
      have hne : tid ≠ tid3 := by
        intro he
        rw [he, htask] at ht
        exact Option.noConfusion ht
      show mapInsert s.store.task_storage tid3 (initialTask now title) tid
        = some t
      rw [mapInsert_ne _ _ _ hne]
      exact ht
  | start_busy tid3 bj3 st2 s3 hbg hph hbe heq =>
      subst heq
      left
      obtain ⟨_, _, _, _, hts, _⟩ := beginExec_busy_elim hbe
      have hne : tid ≠ tid3 := by
        intro he
        subst he
        rw [hbg] at hbj
        have hb : bj3 = bj := Option.some.inj hbj
        rw [hb, hfin] at hph
        exact Phase.noConfusion hph
      show st2.task_storage tid = some t
      rw [hts, updateTask_ne _ _ _ hne]
      exact ht
  | start_run tid3 bj3 st2 s3 hbg hph hbe heq =>
      subst heq
      left
      obtain ⟨_, hts, _⟩ := beginExec_proceed_elim hbe
      have hne : tid ≠ tid3 := by
        intro he
        subst he
        rw [hbg] at hbj
        have hb : bj3 = bj := Option.some.inj hbj
        rw [hb, hfin] at hph
        exact Phase.noConfusion hph
      show st2.task_storage tid = some t
      rw [hts, updateTask_ne _ _ _ hne]
      exact ht
  | finish tid3 bj3 outcome s3 hbg hph heng heq =>
      subst heq
      left
      obtain ⟨g, hts, _⟩ :=
        finishExec_task_storage s.store tid3 bj3.account_id outcome
      have hne : tid ≠ tid3 := by
        intro he
        subst he
        rw [hbg] at hbj
        have hb : bj3 = bj := Option.some.inj hbj
        rw [hb, hfin] at hph
        exact Phase.noConfusion hph
      show (finishExec s.store tid3 bj3.account_id outcome).task_storage tid
        = some t
      rw [hts, updateTask_ne _ _ _ hne]
      exact ht
  | cancel tid3 st2 s3 hc heq =>
      subst heq
      obtain ⟨t3, ht3, hts, _⟩ := cancel_task_elim hc
      by_cases he : tid = tid3
      · subst he
        right
        have hteq : t3 = t := by
          rw [ht] at ht3
          exact (Option.some.inj ht3).symm
        show st2.task_storage tid = some _
        rw [hts, updateTask_self, ht3, hteq]
        rfl
      · left
        show st2.task_storage tid = some t
        rw [hts, updateTask_ne _ _ _ he]
        exact ht

/-- Witness for the amended C4 at the step e4 → e5 (cancel of completed
t1). -/
theorem c4_amended_witness :
    e5.store.task_storage "t1" = some e4Task ∨
    e5.store.task_storage "t1" = some { e4Task with status := .cancelled } :=
  c4_terminal_frame_amended e4 e5 reachable_e4 step_e4_e5 "t1" e4Task e4_t1
    (Or.inl rfl)

/-- C10: the cancel handler (main.py:232-254) mutates only the job's status
field (to "cancelled") and, at most, the job's own account-lock entry; the
job's other fields (progress, result, error, created_at, post_title,
account_id), all other jobs, and all other lock entries are unchanged. -/
theorem c10_cancel_frame :
    ∀ (s : Store) (tid : String) (t : Task) (st2 : Store),
      s.task_storage tid = some t →
      cancel_task s tid = some st2 →
      st2.task_storage tid = some { t with status := .cancelled } ∧
      (∀ tid2, tid2 ≠ tid → st2.task_storage tid2 = s.task_storage tid2) ∧
      (∀ aid, st2.account_locks aid = s.account_locks aid ∨
        (t.account_id = some aid ∧ s.account_locks aid = some tid ∧
         st2.account_locks aid = none)) := by
  intro s tid t st2 ht hc
  obtain ⟨t3, ht3, hts, hlk⟩ := cancel_task_elim hc
  have hteq : t3 = t := by
    rw [ht] at ht3
    exact (Option.some.inj ht3).symm
  subst hteq
  refine ⟨?_, ?_, ?_⟩
  · rw [hts, updateTask_self, ht3]
    rfl
  · intro tid2 hne
    rw [hts, updateTask_ne _ _ _ hne]
  · intro aid
    rcases hlk with h | ⟨aid3, hacc, h⟩
    · left
      rw [h]
    · by_cases ha : aid = aid3
      · subst ha
        by_cases hown : s.account_locks aid = some tid
        · right
          refine ⟨hacc, hown, ?_⟩
          rw [h]
          unfold releaseLock
          rw [if_pos hown, mapErase_self]
        · left
          rw [h, releaseLock_not_owner hown]
      · left
        rw [h]
        unfold releaseLock
        by_cases hown : s.account_locks aid3 = some tid
        · rw [if_pos hown, mapErase_ne _ _ ha]
        · rw [if_neg hown]

/-- Witness for C10: cancelling the failed job t1 of cs1 leaves its error
string and progress 0 in place under status cancelled. -/
theorem c10_frame_witness :
    cs1c.task_storage "t1" = some { failedTask with status := .cancelled } ∧
    (∀ tid2, tid2 ≠ "t1" → cs1c.task_storage tid2 = cs1.task_storage tid2) ∧
    (∀ aid, cs1c.account_locks aid = cs1.account_locks aid ∨
      (failedTask.account_id = some aid ∧ cs1.account_locks aid = some "t1" ∧
       cs1c.account_locks aid = none)) :=
  c10_cancel_frame cs1 "t1" failedTask cs1c rfl cancel_cs1

/-- C7: lock acquisition under a stale lock.  First half: if the existing
entry for the account is owned by a different job that is no longer live
(status neither pending nor in_progress, or no record at all), the acquiring
job replaces the entry with itself and proceeds to in_progress.  Second
half: the AccountBusy outcome occurs only when the current owner is a
different job that is still live.  Both halves are about `beginExec`, a
single atomic block of the event loop (main.py:110-133 contains no await),
which is the atomicity the claim requires of check-and-replace. -/
theorem c7_stale_lock_reclaim :
    (∀ (s : Store) (tid aid tid2 : String) (t : Task),
      s.account_locks aid = some tid2 → tid2 ≠ tid →
      (∀ t2, s.task_storage tid2 = some t2 →
        t2.status ≠ .pending ∧ t2.status ≠ .in_progress) →
      s.task_storage tid = some t →
      ∃ st2, beginExec s tid aid = .proceed st2 ∧
        st2.account_locks aid = some tid ∧
        st2.task_storage tid = some (startUpdate aid t)) ∧
    (∀ (s : Store) (tid aid : String) (st2 : Store),
      beginExec s tid aid = .busy st2 →
      ∃ tid2 t2, s.account_locks aid = some tid2 ∧ tid2 ≠ tid ∧
        s.task_storage tid2 = some t2 ∧
        (t2.status = .pending ∨ t2.status = .in_progress)) := by
  constructor
  · intro s tid aid tid2 t hl hne hdead ht
    have hlive : taskLive s.task_storage tid2 = false := by
      unfold taskLive
      cases ht2 : s.task_storage tid2 with
      | none => rfl
      | some t2 =>
          obtain ⟨hp, hip⟩ := hdead t2 ht2
          exact statusLive_eq_false hp hip
    cases hbeq : beginExec s tid aid with
    | busy st2 =>
        exfalso
        obtain ⟨tid3, hl3, _, hlive3, _, _⟩ := beginExec_busy_elim hbeq
        rw [hl] at hl3
        rw [← Option.some.inj hl3] at hlive3
        rw [hlive] at hlive3
        exact Bool.noConfusion hlive3
    | proceed st2 =>
        obtain ⟨_, hts, hlk⟩ := beginExec_proceed_elim hbeq
        refine ⟨st2, rfl, ?_, ?_⟩
        · rw [hlk]
          exact mapInsert_self _ _ _
        · rw [hts, updateTask_self, ht]
          rfl
  · intro s tid aid st2 h
    obtain ⟨tid2, hl, hne, hlive, _, _⟩ := beginExec_busy_elim h
    unfold taskLive at hlive
    cases ht2 : s.task_storage tid2 with
    | none =>
        rw [ht2] at hlive
        exact Bool.noConfusion hlive
    | some t2 =>
        rw [ht2] at hlive
        have hlive2 : statusLive t2.status = true := hlive
        exact ⟨tid2, t2, hl, hne, ht2, statusLive_true_elim hlive2⟩

/-- Witness for C7: the stale store cs2 (account "a" locked by failed t0)
lets t1 acquire; the live store cs3 (account "a" locked by in_progress t0)
produces AccountBusy with a live owner. -/
theorem c7_stale_witness :
    (∃ st2, beginExec cs2 "t1" "a" = .proceed st2 ∧
      st2.account_locks "a" = some "t1" ∧
      st2.task_storage "t1" = some (startUpdate "a" (initialTask 0 "T"))) ∧
    (∃ tid2 t2, cs3.account_locks "a" = some tid2 ∧ tid2 ≠ "t1" ∧
      cs3.task_storage tid2 = some t2 ∧
      (t2.status = .pending ∨ t2.status = .in_progress)) :=
  ⟨c7_stale_lock_reclaim.1 cs2 "t1" "a" "t0" (initialTask 0 "T") rfl
     (by decide)
     (fun t2 ht2 => by
       cases Option.some.inj ht2
       exact ⟨by decide, by decide⟩)
     rfl,
   c7_stale_lock_reclaim.2 cs3 "t1" "a" cs3busy cs3_busy⟩

/-- The job record cs0's t1 ends in when both engines fail with the errors
"PUPERR" (Puppeteer) and "SELERR" (Selenium). -/
def cexTask : Task := ⟨.failed, 0, 0, "T", none, some "SELERR", some "a"⟩

/-- C5 as stated by the spec: when both engines fail, the job's error string
mentions both engines' failures (a composite of the primary error and the
fallback error); here "mentions" is substring occurrence of each attempt's
error text. -/
def claimC5 : Prop :=
  ∀ (s : Store) (tid aid title content : String) (t : Task)
    (pErr sErr : String) (n : Nat) (sid : String),
    s.task_storage tid = some t → s.account_locks aid = none →
    ∃ t2 e,
      (execute_blog_posting_task s tid aid title content true (some pErr)
        (some sErr) n sid).task_storage tid = some t2 ∧
      t2.status = .failed ∧ t2.progress = 0 ∧ t2.error = some e ∧
      mentions e pErr ∧ mentions e sErr ∧
      (execute_blog_posting_task s tid aid title content true (some pErr)
        (some sErr) n sid).account_locks aid ≠ some tid

/-- C5 fails on the code: blog_poster.py re-raises only the Selenium
exception (`raise e`, blog_poster.py:381) after merely logging the Puppeteer
error (blog_poster.py:331-334), so the job's error field is exactly the
fallback error.  Running t1 on cs0 with Puppeteer failing with "PUPERR" and
Selenium with "SELERR" leaves error "SELERR", which does not contain
"PUPERR". -/
theorem c5_counterexample : ¬ claimC5 := by
  intro h
  obtain ⟨t2, e, h1, _, _, h4, h5, _, _⟩ :=
    h cs0 "t1" "a" "T" "C" (initialTask 0 "T") "PUPERR" "SELERR" 0 "sid" rfl rfl
  have h1b : some cexTask = some t2 := h1
  cases Option.some.inj h1b
  have h4b : (some "SELERR" : Option String) = some e := h4
  cases Option.some.inj h4b
  exact absurd h5 (by unfold mentions; decide)

/-- C5 amended: when the primary (Puppeteer) engine is available and fails
and the fallback (Selenium) engine also fails, the job reaches status failed
with progress 0 and its error string is exactly the fallback engine's error
(the primary error is only logged, never part of the job's error), and the
account lock is released. -/
theorem c5_both_engines_fail_amended :
    ∀ (s : Store) (tid aid title content : String) (t : Task)
      (pErr sErr : String) (n : Nat) (sid : String),
      s.task_storage tid = some t → s.account_locks aid = none →
      (execute_blog_posting_task s tid aid title content true (some pErr)
        (some sErr) n sid).task_storage tid =
        some { t with status := .failed, progress := 0, error := some sErr,
                      account_id := some aid } ∧
      (execute_blog_posting_task s tid aid title content true (some pErr)
        (some sErr) n sid).account_locks aid = none := by
  intro s tid aid title content t pErr sErr n sid ht hl
  have hbe : beginExec s tid aid = .proceed (startRecord s tid aid) := by
    unfold beginExec
    rw [hl]
  constructor
  · unfold execute_blog_posting_task
    rw [hbe]
    show updateTask (startRecord s tid aid).task_storage tid
      (failUpdate sErr) tid = _
    rw [startRecord_task_storage, updateTask_self, updateTask_self, ht]
    rfl
  · unfold execute_blog_posting_task
    rw [hbe]
    show releaseLock (mapInsert s.account_locks aid tid) aid tid aid = none
    unfold releaseLock
    rw [if_pos (mapInsert_self _ _ _), mapErase_self]

/-- Witness for the amended C5 on the concrete store cs0. -/
theorem c5_amended_witness :
    (execute_blog_posting_task cs0 "t1" "a" "T" "C" true (some "PUPERR")
      (some "SELERR") 0 "sid").task_storage "t1" =
      some { (initialTask 0 "T") with
               status := .failed, progress := 0,
               error := some "SELERR", account_id := some "a" } ∧
    (execute_blog_posting_task cs0 "t1" "a" "T" "C" true (some "PUPERR")
      (some "SELERR") 0 "sid").account_locks "a" = none :=
  c5_both_engines_fail_amended cs0 "t1" "a" "T" "C" (initialTask 0 "T")
    "PUPERR" "SELERR" 0 "sid" rfl rfl

/-- C6: if the primary (Puppeteer) engine is available and fails while the
fallback (Selenium) engine succeeds, the job completes with progress 100 and
its result carries the fallback engine's identifier "Selenium"
(blog_poster.py:369); and if the primary engine is unavailable at process
start (PUPPETEER_AVAILABLE false), the primary attempt is skipped entirely —
the outcome does not depend on the primary attempt's result. -/
theorem c6_fallback_engine_success :
    (∀ (s : Store) (tid aid title content : String) (t : Task) (pErr : String)
      (n : Nat) (sid : String),
      s.task_storage tid = some t → s.account_locks aid = none →
      ∃ t2 r,
        (execute_blog_posting_task s tid aid title content true (some pErr)
          none n sid).task_storage tid = some t2 ∧
        t2.status = .completed ∧ t2.progress = 100 ∧ t2.result = some r ∧
        r.automation_engine = "Selenium") ∧
    (∀ (pFail sFail : Option String) (n : Nat) (sid title content : String),
      post_to_naver_blog false pFail sFail n sid title content =
        post_to_naver_blog false none sFail n sid title content) := by
  constructor
  · intro s tid aid title content t pErr n sid ht hl
    have hbe : beginExec s tid aid = .proceed (startRecord s tid aid) := by
      unfold beginExec
      rw [hl]
    refine ⟨{ (startUpdate aid t) with
                status := .completed, progress := 100,
                result := some (seleniumResult title content n sid) },
            seleniumResult title content n sid, ?_, rfl, rfl, rfl, rfl⟩
    unfold execute_blog_posting_task
    rw [hbe]
    show updateTask (startRecord s tid aid).task_storage tid
      (completeUpdate (seleniumResult title content n sid)) tid = _
    rw [startRecord_task_storage, updateTask_self, updateTask_self, ht]
    rfl
  · intro pFail sFail n sid title content
    rfl

/-- Witness for C6 on the concrete store cs0 and concrete engine/flag
choices. -/
theorem c6_fallback_witness :
    (∃ t2 r,
      (execute_blog_posting_task cs0 "t1" "a" "T" "C" true (some "PUPERR")
        none 0 "sid").task_storage "t1" = some t2 ∧
      t2.status = .completed ∧ t2.progress = 100 ∧ t2.result = some r ∧
      r.automation_engine = "Selenium") ∧
    post_to_naver_blog false (some "PUPERR") none 0 "sid" "T" "C" =
      post_to_naver_blog false none none 0 "sid" "T" "C" :=
  ⟨c6_fallback_engine_success.1 cs0 "t1" "a" "T" "C" (initialTask 0 "T")
     "PUPERR" 0 "sid" rfl rfl,
   c6_fallback_engine_success.2 (some "PUPERR") none 0 "sid" "T" "C"⟩

/-- C8: submission always succeeds.  First half: any request that passes
validation is answered with status "pending" and the job record is created
pending (main.py:184-203); an account conflict is never checked at
submission time.  Second half: the AccountBusy conflict is discovered inside
the background execution — the busy path of `beginExec` turns the job's
record from pending directly into failed with progress 0 and the busy error
message, leaving the lock table unchanged; this single atomic update has no
intermediate state, so the job is never in_progress. -/
theorem c8_submission_always_succeeds :
    (∀ (s : Store) (raw : RawRequest) (tid : String) (now : Nat)
      (req : BlogPostRequest), validateRequest raw = .ok req →
      (handle_create_blog_post s raw tid now).2 =
        .ok { task_id := tid, status := "pending", message := submitMessage } ∧
      (handle_create_blog_post s raw tid now).1.task_storage tid =
        some (initialTask now req.postData.title)) ∧
    (∀ (s : Store) (tid aid : String) (st2 : Store) (t : Task),
      beginExec s tid aid = .busy st2 →
      s.task_storage tid = some t → t.status = .pending →
      st2.task_storage tid =
        some { t with status := .failed, progress := 0,
                      error := some (accountBusyMessage aid) } ∧
      st2.account_locks = s.account_locks) := by
  constructor
  · intro s raw tid now req hval
    unfold handle_create_blog_post
    rw [hval]
    constructor
    · rfl
    · show mapInsert s.task_storage tid (initialTask now req.postData.title) tid
        = _
      rw [mapInsert_self]
  · intro s tid aid st2 t hb ht hpend
    obtain ⟨tid3, _, _, _, hts, hlk⟩ := beginExec_busy_elim hb
    refine ⟨?_, hlk⟩
    rw [hts, updateTask_self, ht]
    rfl

/-- A well-formed raw request body. -/
def rawOk : RawRequest := ⟨some ⟨some "T", some "C", none, none⟩, some "a"⟩

/-- Witness for C8: submitting rawOk creates a pending job, and the busy
store cs3 turns the pending t1 directly into failed. -/
theorem c8_submission_witness :
    ((handle_create_blog_post Store0 rawOk "t1" 0).2 =
      .ok { task_id := "t1", status := "pending", message := submitMessage } ∧
     (handle_create_blog_post Store0 rawOk "t1" 0).1.task_storage "t1" =
      some (initialTask 0 "T")) ∧
    (cs3busy.task_storage "t1" =
      some { (initialTask 0 "T") with
               status := .failed, progress := 0,
               error := some (accountBusyMessage "a") } ∧
     cs3busy.account_locks = cs3.account_locks) :=
  ⟨c8_submission_always_succeeds.1 Store0 rawOk "t1" 0
     ⟨⟨"T", "C", none, none⟩, ⟨"a"⟩⟩ rfl,
   c8_submission_always_succeeds.2 cs3 "t1" "a" cs3busy (initialTask 0 "T")
     cs3_busy rfl rfl⟩

/-- C9 as stated by the spec: a request whose title is the empty string is
rejected at submission time with a validation error and no job record is
created. -/
def claimC9 : Prop :=
  ∀ (s : Store) (tid : String) (now : Nat) (content aid : String)
    (cat tags : Option String),
    (∃ c, (handle_create_blog_post s
      ⟨some ⟨some "", some content, cat, tags⟩, some aid⟩ tid now).2 =
        .error c) ∧
    (handle_create_blog_post s
      ⟨some ⟨some "", some content, cat, tags⟩, some aid⟩ tid
      now).1.task_storage tid = s.task_storage tid

/-- C9 fails on the code: the Pydantic model declares `title : str` with no
non-emptiness constraint (main.py:55-59), so an empty-string title passes
validation; the handler answers "pending" and creates the job. -/
theorem c9_counterexample : ¬ claimC9 := by
  intro h
  obtain ⟨⟨c, hc⟩, _⟩ := h Store0 "t1" 0 "C" "a" none none
  exact Except.noConfusion hc

/-- C9 amended: a request missing a required field (a body with no title at
all) is rejected with a 422 validation error before the handler runs and the
store is untouched; but a present empty-string title passes validation — the
submission is answered "pending" and the job record is created. -/
theorem c9_validation_amended :
    (∀ (s : Store) (tid : String) (now : Nat) (content aid : String)
      (cat tags : Option String),
      handle_create_blog_post s ⟨some ⟨none, some content, cat, tags⟩,
        some aid⟩ tid now = (s, .error 422)) ∧
    (∀ (s : Store) (tid : String) (now : Nat) (content aid : String)
      (cat tags : Option String),
      (handle_create_blog_post s ⟨some ⟨some "", some content, cat, tags⟩,
        some aid⟩ tid now).2 =
        .ok { task_id := tid, status := "pending", message := submitMessage } ∧
      (handle_create_blog_post s ⟨some ⟨some "", some content, cat, tags⟩,
        some aid⟩ tid now).1.task_storage tid = some (initialTask now "")) := by
  constructor
  · intro s tid now content aid cat tags
    rfl
  · intro s tid now content aid cat tags
    exact ⟨rfl, mapInsert_self _ _ _⟩

end NaverBlogServer
